import Mathlib

/-!
Verification of the Track2Tabs repository: a shallow embedding of the
chord-timeline lookup and playback synchronization in `public/script.js`,
and of the upload relay handler (the Next.js API route).

Times are modelled as rationals; JS objects become structures; JS
`undefined`/`null` become `Option`; exceptions become `Except`.
-/

namespace Track2Tabs

/-- An interval of the chord timeline, as produced by the backend:
`{ startSec, endSec, label }` (see the data model and `renderChords`). -/
structure Interval where
  startSec : ℚ
  endSec : ℚ
  label : String
deriving DecidableEq, Repr

/-- From `script.js`: `const CHORD_IMAGE_BASE = "/chords/"`. -/
def CHORD_IMAGE_BASE : String := "/chords/"

/-- From `script.js`: `CHORD_IMAGE_MAP`, mapping chord labels to image
filenames; JS object indexing with a missing key yields `undefined`,
modelled as `none`. -/
def CHORD_IMAGE_MAP : String → Option String
  | "A" => some "a-major-v1.png"
  | "Am" => some "a-minor-v1.png"
  | "Bm" => some "b-minor-v1.png"
  | "C" => some "c-major-v1.png"
  | "C7" => some "c-7th-v1.png"
  | "D" => some "d-major-v1.png"
  | "Dm" => some "d-minor-v1.png"
  | "D7" => some "d-7th-v1.png"
  | "E" => some "e-major-v1.png"
  | "Em" => some "e-minor-v1.png"
  | "F" => some "f-major-v1.png"
  | "G" => some "g-major-v1.png"
  | "G7" => some "g-7th-v1.png"
  | _ => none

/-- The predicate of the `find` callback in `getChordAtTime`:
`t >= c.startSec && t < c.endSec`. -/
def containsTime (c : Interval) (t : ℚ) : Bool :=
  decide (c.startSec ≤ t) && decide (t < c.endSec)

/-- From `script.js`:
`currentChords.find(c => t >= c.startSec && t < c.endSec) || currentChords.at(-1) || null`.
`find` returns the first match or `undefined`; an interval object is always
truthy, so `||` falls through exactly when `find` (resp. `at(-1)`) yields
`undefined`; `at(-1)` is the last element. -/
def getChordAtTime (timeline : List Interval) (t : ℚ) : Option Interval :=
  match timeline.find? (fun c => containsTime c t) with
  | some c => some c
  | none => timeline.getLast?

/-- The ChordTimeline invariants of the spec's data model: each interval has
`startSec < endSec`, and adjacent intervals satisfy
`i.endSec <= (i+1).startSec` (sorted by `startSec`, non-overlapping). -/
def timelineWF : List Interval → Bool
  | [] => true
  | [c] => decide (c.startSec < c.endSec)
  | c :: d :: rest =>
      (decide (c.startSec < c.endSec) && decide (c.endSec ≤ d.startSec))
        && timelineWF (d :: rest)

/-- The observable output of `setCurrentChordDisplay`: the text content of
the current-chord span, and the `src` of the chord image if one is shown
(`none` models an emptied `chord-image` container). -/
structure ChordDisplay where
  currentChordText : String
  chordImageSrc : Option String
deriving DecidableEq, Repr

/-- From `script.js` `renderChordImage`: clears the container, then if the
label has a (truthy) filename in `CHORD_IMAGE_MAP`, shows the image at
`CHORD_IMAGE_BASE + filename`; otherwise nothing is shown. -/
def renderChordImage (label : String) : Option String :=
  match CHORD_IMAGE_MAP label with
  | none => none
  | some filename => some (CHORD_IMAGE_BASE ++ filename)

/-- From `script.js` `setCurrentChordDisplay`: on a falsy argument, sets the
span text to the placeholder and empties the image container; otherwise
shows the label and its diagram. -/
def setCurrentChordDisplay : Option Interval → ChordDisplay
  | none => { currentChordText := "—", chordImageSrc := none }
  | some chord =>
      { currentChordText := chord.label
        chordImageSrc := renderChordImage chord.label }

/-- The "no chord" signal: placeholder text, image container cleared. -/
def noChordDisplay : ChordDisplay :=
  { currentChordText := "—", chordImageSrc := none }

/-- From `script.js`: the `audioEl.ontimeupdate` handler,
`setCurrentChordDisplay(getChordAtTime(audioEl.currentTime))`. -/
def onTimeUpdate (timeline : List Interval) (t : ℚ) : ChordDisplay :=
  setCurrentChordDisplay (getChordAtTime timeline t)

/-! The upload relay: the Next.js API route in the unnamed source file. -/

/-- The relevant parts of an incoming request to the relay: its HTTP method
and the `filename`, `mimetype`, `data` fields of the JSON body (each
possibly absent). -/
structure ApiRequest where
  method : String
  filename : Option String
  mimetype : Option String
  data : Option String
deriving DecidableEq, Repr

/-- A response from the Python backend as observed by the handler: the `ok`
flag, the body text (read by `.text()` on the error path), and the result of
`.json()` (`Except.error` models a thrown parse exception, carrying the
exception's `message`; the parsed payload is kept abstract as a string). -/
structure BackendResponse where
  ok : Bool
  bodyText : String
  json : Except String String

/-- The body of a relay response: `{ error }`, `{ error, details }`, or a
successful JSON payload. -/
inductive RespBody where
  | errOnly (error : String)
  | errDetails (error : String) (details : String)
  | success (payload : String)
deriving DecidableEq, Repr

/-- An HTTP response sent by the relay: status code and JSON body. -/
structure ApiResponse where
  status : Nat
  body : RespBody
deriving DecidableEq, Repr

/-- The outcome of one relay invocation: the response sent, and whether the
forwarding `fetch` to the backend was performed. -/
structure HandlerResult where
  response : ApiResponse
  backendContacted : Bool
deriving DecidableEq, Repr

/-- JS truthiness of a possibly-absent string field (`!data` rejects both a
missing field and the empty string). -/
def jsTruthy : Option String → Bool
  | none => false
  | some s => !(s == "")

/-- From the API route's `handler`: rejects non-POST with 405; inside
`try`, rejects a falsy `data` field with 400; otherwise forwards to the
backend (`fetchBackend`, whose `Except.error` models a thrown exception,
e.g. an unreachable backend); a non-ok backend response yields
`500 { error: "Python service failed", details: text }`; a thrown exception
is caught and yields `500 { error: "Server error", details: err.message }`;
otherwise the parsed backend JSON is returned with status 200. -/
def handler (req : ApiRequest) (fetchBackend : Except String BackendResponse) :
    HandlerResult :=
  if req.method ≠ "POST" then
    ⟨⟨405, .errOnly "Method not allowed"⟩, false⟩
  else if ¬ jsTruthy req.data then
    ⟨⟨400, .errOnly "Missing audio data"⟩, false⟩
  else
    match fetchBackend with
    | .error msg => ⟨⟨500, .errDetails "Server error" msg⟩, true⟩
    | .ok resp =>
        if ¬ resp.ok then
          ⟨⟨500, .errDetails "Python service failed" resp.bodyText⟩, true⟩
        else
          match resp.json with
          | .error msg => ⟨⟨500, .errDetails "Server error" msg⟩, true⟩
          | .ok payload => ⟨⟨200, .success payload⟩, true⟩

/-- From the API route: `config.api.bodyParser.sizeLimit = "25mb"`. -/
def config_sizeLimit : String := "25mb"

/-- Modelled from the spec: the Next.js `bodyParser` size-limit parsing is
framework code absent from `src/`; `"25mb"` denotes 25 * 2^20 bytes. -/
def parseSizeLimit (s : String) : Nat :=
  if s == "25mb" then 25 * 1048576 else 0

/-- Modelled from the spec: the Next.js body-parser transport enforcing the
configured `sizeLimit` is framework code absent from `src/`; per the spec,
a request whose encoded body exceeds the configured limit fails with a
transport-level rejection (HTTP 413) before the handler — and hence the
backend — is reached, with no truncation; otherwise the handler runs on the
full body. -/
def transport (bodySize : Nat) (req : ApiRequest)
    (fetchBackend : Except String BackendResponse) : HandlerResult :=
  if bodySize > parseSizeLimit config_sizeLimit then
    ⟨⟨413, .errOnly "Body exceeded size limit"⟩, false⟩
  else
    handler req fetchBackend

/-! The frontend's handling of the relay response (`handleFile`). -/

/-- The parsed JSON body returned by the upload endpoint, as read by
`handleFile`: a possibly-absent `chords` array, and the possibly-present
`error` / `details` fields of an error body. -/
structure AnalyzeResult where
  chords : Option (List Interval)
  error : Option String
  details : Option String
deriving DecidableEq, Repr

/-- The UI state that `handleFile` manipulates: the status text, the global
`currentChords` timeline, the current-chord display, and the download
button's `disabled` flag. -/
structure UploadUIState where
  statusText : String
  currentChords : List Interval
  chordDisplay : ChordDisplay
  downloadBtnDisabled : Bool
deriving DecidableEq, Repr

/-- From `handleFile`: the reset performed before the request is sent. -/
def resetUploadUI : UploadUIState :=
  { statusText := "Analyzing chords…"
    currentChords := []
    chordDisplay := setCurrentChordDisplay none
    downloadBtnDisabled := true }

/-- From `handleFile`, after `res.json()` resolves to `result`:
`currentChords = result.chords || []` (a present array — even empty — is
truthy; a missing field gives `[]`), then unconditionally
`statusDiv.textContent = "Chords detected."` and
`downloadBtn.disabled = false`. -/
def applyAnalyzeResult (s : UploadUIState) (result : AnalyzeResult) :
    UploadUIState :=
  { s with
    currentChords := result.chords.getD []
    statusText := "Chords detected."
    downloadBtnDisabled := false }

/-- The end-to-end state transformation of `handleFile` once a response
body has been parsed. -/
def handleFile (result : AnalyzeResult) : UploadUIState :=
  applyAnalyzeResult resetUploadUI result

/-! The PDF export (`downloadBtn.onclick` and `loadImage`). -/

/-- JS `[...new Set(list)]`: deduplication keeping first occurrences in
order. -/
def jsSetDedup : List String → List String
  | [] => []
  | a :: l => a :: (jsSetDedup l).filter (fun b => b != a)

/-- From `downloadBtn.onclick`: the image URL built for a chord label,
`CHORD_IMAGE_BASE + CHORD_IMAGE_MAP[ch]`; in JS, a missing map entry is
`undefined`, and string concatenation stringifies it to `"undefined"`. -/
def chordDiagramSrc (ch : String) : String :=
  CHORD_IMAGE_BASE ++
    (match CHORD_IMAGE_MAP ch with
      | some filename => filename
      | none => "undefined")

/-- From `script.js` `loadImage`: a promise that resolves with the image
only via `onload`; no `onerror` handler is installed, so if the image at
`src` fails to load the promise never settles — modelled as `none`. The
environment (which URLs actually load) is the parameter `imageLoads`. -/
def loadImage (imageLoads : String → Bool) (src : String) : Option String :=
  if imageLoads src then some src else none

/-- The `for (const ch of unique)` loop of `downloadBtn.onclick`: each
diagram is awaited in order; if one `loadImage` promise never resolves the
loop — and the export — never completes (`none`). -/
def loadChordDiagrams (imageLoads : String → Bool) : List String → Option (List String)
  | [] => some []
  | ch :: rest =>
      match loadImage imageLoads (chordDiagramSrc ch) with
      | none => none
      | some img =>
          match loadChordDiagrams imageLoads rest with
          | none => none
          | some imgs => some (img :: imgs)

/-- The PDF export: builds the unique label list
`[...new Set(currentChords.map(c => c.label))]`, then awaits every diagram;
`pdf.save` runs (the export completes, `isSome`) exactly when the loop
finishes. -/
def exportChordSheet (imageLoads : String → Bool) (chords : List Interval) :
    Option (List String) :=
  loadChordDiagrams imageLoads (jsSetDedup (chords.map (fun c => c.label)))

/-! Helper lemmas. -/

/-- A well-formed timeline's tail is well-formed. -/
theorem timelineWF_tail {c : Interval} {rest : List Interval}
    (h : timelineWF (c :: rest) = true) : timelineWF rest = true := by
  cases rest with
  | nil => rfl
  | cons d rest' =>
    simp only [timelineWF, Bool.and_eq_true] at h
    exact h.2

/-- A well-formed timeline's head interval has positive length. -/
theorem timelineWF_head_pos {c : Interval} {rest : List Interval}
    (h : timelineWF (c :: rest) = true) : c.startSec < c.endSec := by
  cases rest with
  | nil =>
    simpa only [timelineWF, decide_eq_true_eq] using h
  | cons d rest' =>
    simp only [timelineWF, Bool.and_eq_true, decide_eq_true_eq] at h
    exact h.1.1

/-- In a well-formed timeline, every interval after the head starts no
earlier than the head ends. -/
theorem timelineWF_head_le {c x : Interval} {rest : List Interval}
    (h : timelineWF (c :: rest) = true) (hx : x ∈ rest) :
    c.endSec ≤ x.startSec := by
  induction rest generalizing c with
  | nil => cases hx
  | cons d rest' ih =>
    simp only [timelineWF, Bool.and_eq_true, decide_eq_true_eq] at h
    obtain ⟨⟨-, hle⟩, hwf⟩ := h
    rcases List.mem_cons.mp hx with rfl | hx'
    · exact hle
    · have hd : d.endSec ≤ x.startSec := ih hwf hx'
      have hdpos : d.startSec < d.endSec := timelineWF_head_pos hwf
      linarith

/-- Membership in the JS-Set deduplication is membership in the list. -/
theorem mem_jsSetDedup {x : String} {l : List String} :
    x ∈ jsSetDedup l ↔ x ∈ l := by
  induction l with
  | nil => simp [jsSetDedup]
  | cons a l ih =>
    simp only [jsSetDedup, List.mem_cons, List.mem_filter]
    constructor
    · rintro (rfl | ⟨hx, -⟩)
      · exact Or.inl rfl
      · exact Or.inr (ih.mp hx)
    · rintro (rfl | hx)
      · exact Or.inl rfl
      · by_cases hxa : x = a
        · exact Or.inl hxa
        · exact Or.inr ⟨ih.mpr hx, bne_iff_ne.mpr hxa⟩

/-- One step of the diagram-await loop: it can still complete exactly when
the head image loads and the rest of the loop can complete. -/
theorem loadChordDiagrams_cons (imageLoads : String → Bool)
    (ch : String) (rest : List String) :
    (loadChordDiagrams imageLoads (ch :: rest)).isSome =
      (imageLoads (chordDiagramSrc ch)
        && (loadChordDiagrams imageLoads rest).isSome) := by
  simp only [loadChordDiagrams]
  cases hload : imageLoads (chordDiagramSrc ch) with
  | false => simp [loadImage, hload]
  | true =>
    simp only [loadImage, hload, if_true]
    cases hr : loadChordDiagrams imageLoads rest <;> simp

/-- The diagram-await loop completes exactly when every image in the list
loads. -/
theorem loadChordDiagrams_isSome (imageLoads : String → Bool)
    (l : List String) :
    (loadChordDiagrams imageLoads l).isSome = true ↔
      ∀ ch ∈ l, imageLoads (chordDiagramSrc ch) = true := by
  induction l with
  | nil => simp [loadChordDiagrams]
  | cons ch rest ih =>
    rw [loadChordDiagrams_cons, Bool.and_eq_true, ih, List.forall_mem_cons]

/-- In a well-formed timeline, `find?` with the containment predicate
returns exactly the member interval containing `t`. -/
theorem find_containing {tl : List Interval} {i : Interval} {t : ℚ}
    (hwf : timelineWF tl = true) (hmem : i ∈ tl)
    (h1 : i.startSec ≤ t) (h2 : t < i.endSec) :
    tl.find? (fun c => containsTime c t) = some i := by
  induction tl with
  | nil => cases hmem
  | cons c rest ih =>
    rcases List.mem_cons.mp hmem with rfl | hmem'
    · apply List.find?_cons_of_pos
      simp only [containsTime, Bool.and_eq_true, decide_eq_true_eq]
      exact ⟨h1, h2⟩
    · have hle : c.endSec ≤ i.startSec := timelineWF_head_le hwf hmem'
      have hnlt : ¬ t < c.endSec := not_lt.mpr (hle.trans h1)
      have hneg : containsTime c t = false := by
        unfold containsTime
        rw [decide_eq_false hnlt, Bool.and_false]
      rw [List.find?_cons]
      simp only [hneg]
      exact ih (timelineWF_tail hwf) hmem'

/-! Claim theorems. -/

/-- Claim C1: for every non-empty timeline satisfying the spec's
ChordTimeline invariants (sorted by `startSec` ascending, non-overlapping,
positive-length intervals), every interval `i` in it and every time `t`
with `i.startSec ≤ t < i.endSec`, `getChordAtTime` returns exactly `i`. -/
theorem getChordAtTime_containment (tl : List Interval) (i : Interval) (t : ℚ)
    (hwf : timelineWF tl = true) (hmem : i ∈ tl)
    (h1 : i.startSec ≤ t) (h2 : t < i.endSec) :
    getChordAtTime tl t = some i := by
  unfold getChordAtTime
  rw [find_containing hwf hmem h1 h2]

/-- Witness for C1: the spec's end-to-end scenario 1, inside the first
interval. -/
theorem getChordAtTime_containment_witness :
    getChordAtTime [⟨0, 2, "C"⟩, ⟨2, 4, "G"⟩] 1 = some ⟨0, 2, "C"⟩ :=
  getChordAtTime_containment [⟨0, 2, "C"⟩, ⟨2, 4, "G"⟩] ⟨0, 2, "C"⟩ 1
    (by decide) (by decide) (by decide) (by decide)

/-- Claim C2: for every non-empty timeline and every time `t` contained in
no interval, `getChordAtTime` returns the last interval of the sequence. -/
theorem getChordAtTime_fallback (tl : List Interval) (t : ℚ)
    (hne : tl ≠ [])
    (hno : ∀ c ∈ tl, ¬ (c.startSec ≤ t ∧ t < c.endSec)) :
    getChordAtTime tl t = some (tl.getLast hne) := by
  unfold getChordAtTime
  have hfind : tl.find? (fun c => containsTime c t) = none := by
    rw [List.find?_eq_none]
    intro x hx
    simp only [containsTime, Bool.and_eq_true, decide_eq_true_eq]
    exact hno x hx
  rw [hfind, List.getLast?_eq_getLast tl hne]

/-- Witness for C2: the spec's end-to-end scenario 1 at `t = 10`. -/
theorem getChordAtTime_fallback_witness :
    getChordAtTime [⟨0, 2, "C"⟩, ⟨2, 4, "G"⟩] 10 = some ⟨2, 4, "G"⟩ :=
  getChordAtTime_fallback [⟨0, 2, "C"⟩, ⟨2, 4, "G"⟩] 10
    (by decide) (by decide)

/-- Claim C3: on the empty timeline `getChordAtTime` returns `none` for
every `t`, and the time-update handler then emits the distinct "no chord"
signal: placeholder text, chord image cleared. -/
theorem emptyTimeline_noChord (t : ℚ) :
    getChordAtTime [] t = none ∧
    onTimeUpdate [] t = noChordDisplay ∧
    noChordDisplay.currentChordText = "—" ∧
    noChordDisplay.chordImageSrc = none :=
  ⟨rfl, rfl, rfl, rfl⟩

/-- Claim C4: whenever the backend responds with a non-success status, the
relay responds 500 with `error`/`details`, `details` being the upstream
body text unmodified (and the backend was indeed contacted). -/
theorem handler_upstream_failure (req : ApiRequest) (resp : BackendResponse)
    (hm : req.method = "POST") (hd : jsTruthy req.data = true)
    (hok : resp.ok = false) :
    handler req (.ok resp) =
      ⟨⟨500, .errDetails "Python service failed" resp.bodyText⟩, true⟩ := by
  simp [handler, hm, hd, hok]

/-- Witness for C4: a POST with data, backend replying not-ok with body
`"boom"`. -/
theorem handler_upstream_failure_witness :
    handler ⟨"POST", some "a.wav", some "audio/wav", some "UklGRg=="⟩
        (.ok ⟨false, "boom", .error "not json"⟩) =
      ⟨⟨500, .errDetails "Python service failed" "boom"⟩, true⟩ :=
  handler_upstream_failure
    ⟨"POST", some "a.wav", some "audio/wav", some "UklGRg=="⟩
    ⟨false, "boom", .error "not json"⟩ rfl (by decide) rfl

/-- Claim C5: a non-POST request is answered 405 with an error-only body,
and a POST lacking the `data` field is answered 400 with an error-only
body; in both cases no forwarding fetch to the backend occurs. -/
theorem handler_validation (req : ApiRequest)
    (fetchBackend : Except String BackendResponse) :
    (req.method ≠ "POST" →
      handler req fetchBackend =
        ⟨⟨405, .errOnly "Method not allowed"⟩, false⟩) ∧
    (req.method = "POST" → req.data = none →
      handler req fetchBackend =
        ⟨⟨400, .errOnly "Missing audio data"⟩, false⟩) := by
  constructor
  · intro hm
    unfold handler
    simp [hm]
  · intro hm hd
    unfold handler
    rw [hm, hd]
    simp [jsTruthy]

/-- Witness for C5: a GET request and a data-less POST, each rejected
without contacting the backend. -/
theorem handler_validation_witness :
    handler ⟨"GET", none, none, none⟩ (.error "unreachable") =
      ⟨⟨405, .errOnly "Method not allowed"⟩, false⟩ ∧
    handler ⟨"POST", some "a.wav", none, none⟩ (.error "unreachable") =
      ⟨⟨400, .errOnly "Missing audio data"⟩, false⟩ :=
  ⟨(handler_validation _ _).1 (by decide),
   (handler_validation _ _).2 rfl rfl⟩

/-- Claim C6: any exception thrown during relay handling after validation —
a throwing fetch (backend unreachable) or a throwing `.json()` parse — is
caught and reported as `500 { error: "Server error", details: message }`;
the handler is a total function of the single request and backend outcome,
so no failure escapes it and requests are independent. -/
theorem handler_catches_exceptions (req : ApiRequest)
    (hm : req.method = "POST") (hd : jsTruthy req.data = true) :
    (∀ msg, handler req (.error msg) =
      ⟨⟨500, .errDetails "Server error" msg⟩, true⟩) ∧
    (∀ (resp : BackendResponse) msg, resp.ok = true → resp.json = .error msg →
      handler req (.ok resp) =
        ⟨⟨500, .errDetails "Server error" msg⟩, true⟩) := by
  constructor
  · intro msg
    simp [handler, hm, hd]
  · intro resp msg hok hjson
    simp [handler, hm, hd, hok, hjson]

/-- Witness for C6: a valid POST whose fetch throws, and one whose backend
body fails to parse as JSON. -/
theorem handler_catches_exceptions_witness :
    handler ⟨"POST", some "a.wav", some "audio/wav", some "UklGRg=="⟩
        (.error "fetch failed") =
      ⟨⟨500, .errDetails "Server error" "fetch failed"⟩, true⟩ ∧
    handler ⟨"POST", some "a.wav", some "audio/wav", some "UklGRg=="⟩
        (.ok ⟨true, "<html>", .error "Unexpected token"⟩) =
      ⟨⟨500, .errDetails "Server error" "Unexpected token"⟩, true⟩ :=
  ⟨(handler_catches_exceptions
      ⟨"POST", some "a.wav", some "audio/wav", some "UklGRg=="⟩
      rfl (by decide)).1 "fetch failed",
   (handler_catches_exceptions
      ⟨"POST", some "a.wav", some "audio/wav", some "UklGRg=="⟩
      rfl (by decide)).2
     ⟨true, "<html>", .error "Unexpected token"⟩ "Unexpected token" rfl rfl⟩

/-- Claim C7: the configured transport limit is `"25mb"` = 26214400 bytes,
so bodies up to at least 25 MB are accepted (passed whole to the handler,
no truncation); a body exceeding the limit is rejected at the transport
level, before the backend is contacted, with status 413 — distinct from
the 500 of an upstream-failure rejection. -/
theorem transport_size_cap (bodySize : Nat) (req : ApiRequest)
    (fetchBackend : Except String BackendResponse) :
    parseSizeLimit config_sizeLimit = 26214400 ∧
    25 * 1048576 ≤ parseSizeLimit config_sizeLimit ∧
    (bodySize ≤ parseSizeLimit config_sizeLimit →
      transport bodySize req fetchBackend = handler req fetchBackend) ∧
    (bodySize > parseSizeLimit config_sizeLimit →
      transport bodySize req fetchBackend =
        ⟨⟨413, .errOnly "Body exceeded size limit"⟩, false⟩ ∧
      (413 : Nat) ≠ 500) := by
  refine ⟨rfl, by decide, ?_, ?_⟩
  · intro hle
    unfold transport
    rw [if_neg (by omega)]
  · intro hgt
    refine ⟨?_, by decide⟩
    unfold transport
    rw [if_pos hgt]

/-- Witness for C7: a 25 MB body passes through; a body one byte over the
limit is rejected with 413 before the backend is reached. -/
theorem transport_size_cap_witness :
    transport 26214400 ⟨"GET", none, none, none⟩ (.error "unreachable") =
      handler ⟨"GET", none, none, none⟩ (.error "unreachable") ∧
    transport 26214401 ⟨"GET", none, none, none⟩ (.error "unreachable") =
      ⟨⟨413, .errOnly "Body exceeded size limit"⟩, false⟩ :=
  ⟨(transport_size_cap 26214400 ⟨"GET", none, none, none⟩
      (.error "unreachable")).2.2.1 (by decide),
   ((transport_size_cap 26214401 ⟨"GET", none, none, none⟩
      (.error "unreachable")).2.2.2 (by decide)).1⟩

/-- Claim C8: `handleFile` ignores relay failures: whatever response body
the upload endpoint returns — error bodies included — the timeline becomes
`result.chords` when present and `[]` otherwise, the status text becomes
"Chords detected.", the download button is enabled, and the outcome never
depends on the `error`/`details` fields, so no relay error message is ever
shown. -/
theorem handleFile_ignores_errors (result : AnalyzeResult) :
    (handleFile result).statusText = "Chords detected." ∧
    (handleFile result).downloadBtnDisabled = false ∧
    (handleFile result).currentChords = result.chords.getD [] ∧
    (∀ other : AnalyzeResult, other.chords = result.chords →
      handleFile other = handleFile result) := by
  refine ⟨rfl, rfl, rfl, ?_⟩
  intro other hch
  unfold handleFile applyAnalyzeResult
  rw [hch]

/-- Witness for C8: an error body from the relay yields the same UI state
as an empty success body — status "Chords detected.", button enabled. -/
theorem handleFile_ignores_errors_witness :
    (handleFile ⟨none, some "Python service failed", some "boom"⟩).statusText
      = "Chords detected." ∧
    handleFile ⟨none, none, none⟩ =
      handleFile ⟨none, some "Python service failed", some "boom"⟩ :=
  ⟨(handleFile_ignores_errors _).1,
   (handleFile_ignores_errors _).2.2.2 _ rfl⟩

/-- Claim C9: `getChordAtTime` returns `none` or an element of the
timeline — never a fabricated interval — and it returns `none` exactly when
the timeline is empty. -/
theorem getChordAtTime_membership (tl : List Interval) (t : ℚ) :
    (getChordAtTime tl t = none ∨
      ∃ i ∈ tl, getChordAtTime tl t = some i) ∧
    (getChordAtTime tl t = none ↔ tl = []) := by
  unfold getChordAtTime
  cases hf : tl.find? (fun c => containsTime c t) with
  | some c =>
    have hc : c ∈ tl := List.mem_of_find?_eq_some hf
    refine ⟨Or.inr ⟨c, hc, rfl⟩, ?_, ?_⟩
    · intro h
      cases h
    · intro h
      subst h
      cases hc
  | none =>
    cases hl : tl.getLast? with
    | some c =>
      have hc : c ∈ tl := List.mem_of_getLast?_eq_some hl
      refine ⟨Or.inr ⟨c, hc, rfl⟩, ?_, ?_⟩
      · intro h
        cases h
      · intro h
        subst h
        cases hc
    | none =>
      have : tl = [] := List.getLast?_eq_none_iff.mp hl
      exact ⟨Or.inl rfl, fun _ => this, fun _ => rfl⟩

/-- Claim C10: the PDF export completes exactly when every distinct label
of the timeline has an entry in `CHORD_IMAGE_MAP` — under the environment
assumptions that mapped diagram assets load and that the URL built from a
missing entry (`"/chords/undefined"`) does not load, in which case that
label's `loadImage` promise never resolves and the export never finishes. -/
theorem exportChordSheet_termination (imageLoads : String → Bool)
    (chords : List Interval)
    (hmapped : ∀ i ∈ chords, (CHORD_IMAGE_MAP i.label).isSome = true →
      imageLoads (chordDiagramSrc i.label) = true)
    (hundef : imageLoads (CHORD_IMAGE_BASE ++ "undefined") = false) :
    (exportChordSheet imageLoads chords).isSome = true ↔
      ∀ i ∈ chords, (CHORD_IMAGE_MAP i.label).isSome = true := by
  unfold exportChordSheet
  rw [loadChordDiagrams_isSome]
  constructor
  · intro h i hi
    have hlab : i.label ∈ jsSetDedup (chords.map (fun c => c.label)) := by
      rw [mem_jsSetDedup]
      exact List.mem_map_of_mem _ hi
    by_contra hnone
    have hmiss : CHORD_IMAGE_MAP i.label = none := by
      cases hmap : CHORD_IMAGE_MAP i.label with
      | none => rfl
      | some f => rw [hmap] at hnone; exact absurd rfl hnone
    have hsrc : chordDiagramSrc i.label = CHORD_IMAGE_BASE ++ "undefined" := by
      unfold chordDiagramSrc
      rw [hmiss]
    have := h i.label hlab
    rw [hsrc, hundef] at this
    exact absurd this (by simp)
  · intro h ch hch
    rw [mem_jsSetDedup] at hch
    obtain ⟨i, hi, rfl⟩ := List.mem_map.mp hch
    exact hmapped i hi (h i hi)

/-- Witness for C10: with an environment that serves the mapped diagram for
"C" but nothing at the undefined URL, the export over the timeline
`[(0,2,C)]` completes exactly because "C" is mapped. -/
theorem exportChordSheet_termination_witness :
    ((exportChordSheet (fun src => src == "/chords/c-major-v1.png")
        [⟨0, 2, "C"⟩]).isSome = true ↔
      ∀ i ∈ [(⟨0, 2, "C"⟩ : Interval)],
        (CHORD_IMAGE_MAP i.label).isSome = true) :=
  exportChordSheet_termination (fun src => src == "/chords/c-major-v1.png")
    [⟨0, 2, "C"⟩] (by decide) (by decide)

end Track2Tabs
